import Mathlib

/-!
Shallow embedding of the TabTransformer repository
(src/tab_transformer_pytorch/ft_transformer.py and
src/tab_transformer_pytorch/tab_transformer_pytorch.py).

The repository is a model-definition layer over PyTorch.  The embedding is
split into three levels, each translated from the source:

1. an arithmetic level for the category offset table and lookup ids
   (Python unbounded ints are embedded as Int);
2. a shape level for the forward passes: tensors are embedded as their
   shapes (lists of Nat) and every framework operation is embedded by its
   shape/error semantics (broadcasting, matmul constraints, concatenation,
   Python tuple unpacking of a tensor, assert statements, attribute lookup);
3. a data level over the rationals for the embedding-extraction path and
   the numerical embedder, where the framework scalar primitives that are
   not rational (exp, gelu, rsqrt, the float constant dim_head ** -0.5)
   are parameters of the model structure; batched tensor operations whose
   index expressions never couple distinct batch indices are embedded as
   maps over the batch dimension.

Dropout modules are embedded in evaluation mode (identity), matching the
specification, which makes dropout active only in training mode.
-/

namespace TabSpec

/-- Python-level runtime errors raised by the code paths under study. -/

inductive Err where
  | assertError (msg : String)
  | attributeError (name : String)
  | valueError (msg : String)
  | typeError (msg : String)
  | runtimeError (msg : String)
  deriving DecidableEq, Repr

/-- Computations that may raise a Python exception. -/

abbrev M (α : Type) := Except Err α

/-- Python assert statement: raises AssertionError with the message when the
condition is false. -/

def assertS (b : Bool) (msg : String) : M Unit :=
  if b then .ok () else .error (.assertError msg)

/-! ## Category offset table (ft_transformer.py lines 168-171,
tab_transformer_pytorch.py lines 224-227)

Source, identical in both files:
  categories_offset = F.pad(torch.tensor(list(categories)), (1, 0), value = num_special_tokens)
  categories_offset = categories_offset.cumsum(dim = -1)[:-1]
-/

/-- torch cumsum over a 1-d integer tensor: entry i is the sum of the
entries at positions 0..i (see cumsumZ_getD below for that specification). -/

def cumsumZ : List ℤ → List ℤ
  | [] => []
  | a :: t => a :: (cumsumZ t).map (a + ·)

/-- The category offset table: pad the cardinality list on the left with
num_special_tokens, take the cumulative sum, and drop the last entry. -/

def categoriesOffsetZ (categories : List ℤ) (numSpecialTokens : ℤ) : List ℤ :=
  (cumsumZ (numSpecialTokens :: categories)).dropLast

/-! ## Shape-level tensor model

Tensors are embedded by their shapes.  Every framework operation used by
the forward passes is embedded by its shape/error semantics. -/

/-- The shape of a tensor (sizes of the dimensions, leading first). -/

abbrev Shape := List ℕ

/-- PyTorch broadcasting on reversed shapes (trailing dimension first):
each aligned pair of sizes must be equal or contain 1. -/

def broadcastRev : List ℕ → List ℕ → Option (List ℕ)
  | [], ys => some ys
  | xs, [] => some xs
  | x :: xs, y :: ys =>
    match broadcastRev xs ys with
    | none => none
    | some rest =>
      if x = y then some (x :: rest)
      else if x = 1 then some (y :: rest)
      else if y = 1 then some (x :: rest)
      else none

/-- PyTorch broadcasting of two shapes. -/

def broadcastShapes (s t : Shape) : Option Shape :=
  (broadcastRev s.reverse t.reverse).map List.reverse

/-- An elementwise binary tensor operation (add, sub, mul, div): broadcasts
the two operand shapes or raises the usual size-mismatch RuntimeError. -/

def binOpShape (s t : Shape) : M Shape :=
  match broadcastShapes s t with
  | some r => .ok r
  | none => .error (.runtimeError "the size of tensor a must match the size of tensor b at a non-singleton dimension")

/-- Shape of the tensor at some attribute index 0 (tensor.shape[0]); raises
on a 0-dimensional tensor as Python indexing does. -/

def sizeDim0S (s : Shape) : M ℕ :=
  match s with
  | [] => .error (.runtimeError "dimension 0 of a 0-d tensor")
  | b :: _ => .ok b

/-- Trailing dimension tensor.shape[-1]; raises on a 0-dimensional tensor. -/

def shapeLastS (s : Shape) : M ℕ :=
  match s.getLast? with
  | some d => .ok d
  | none => .error (.runtimeError "tuple index out of range")

/-- Dimension tensor.shape[1]; raises when the rank is below 2. -/

def shapeIdx1S (s : Shape) : M ℕ :=
  match s with
  | _ :: n :: _ => .ok n
  | _ => .error (.runtimeError "tuple index out of range")

/-- nn.LayerNorm(dim): requires the trailing dimension to equal dim,
preserves the shape. -/

def layerNormS (dim : ℕ) (s : Shape) : M Shape :=
  match s.getLast? with
  | some d =>
    if d = dim then .ok s
    else .error (.runtimeError "given normalized_shape, expected input with a matching trailing dimension")
  | none => .error (.runtimeError "layer norm on a 0-d tensor")

/-- nn.Linear(dIn, dOut): requires the trailing dimension to equal dIn and
replaces it with dOut. -/

def linearS (dIn dOut : ℕ) (s : Shape) : M Shape :=
  match s.getLast? with
  | some d =>
    if d = dIn then .ok (s.dropLast ++ [dOut])
    else .error (.runtimeError "mat1 and mat2 shapes cannot be multiplied")
  | none => .error (.runtimeError "linear on a 0-d tensor")

/-- tensor.chunk(3, dim=-1) as used on the qkv projection, whose trailing
dimension is inner_dim * 3: the three parts share one shape. -/

def chunk3LastS (s : Shape) : M Shape :=
  match s.getLast? with
  | some d =>
    if d % 3 = 0 then .ok (s.dropLast ++ [d / 3])
    else .error (.runtimeError "chunk into three unequal parts")
  | none => .error (.runtimeError "chunk on a 0-d tensor")

/-- GEGLU.forward: x, gates = x.chunk(2, dim=-1); x * F.gelu(gates).
Both halves share the trailing size when it is even (as in every reachable
use, where it is dim * mult * 2); an odd trailing size would make the
elementwise product fail, embedded as an error. -/

def chunk2GegluS (s : Shape) : M Shape :=
  match s.getLast? with
  | some d =>
    if d % 2 = 0 then .ok (s.dropLast ++ [d / 2])
    else .error (.runtimeError "chunk into two unequal parts cannot be multiplied")
  | none => .error (.runtimeError "chunk on a 0-d tensor")

/-- einops rearrange of one qkv part from b n (h d) to b h n d with h heads:
requires rank 3 and a trailing dimension divisible by h. -/

def splitHeadsS (h : ℕ) (s : Shape) : M Shape :=
  match s with
  | [b, n, m] =>
    if 0 < h ∧ m % h = 0 then .ok [b, h, n, m / h]
    else .error (.runtimeError "einops rearrange cannot split the trailing axis into heads")
  | _ => .error (.runtimeError "einops rearrange expected a rank 3 tensor")

/-- einops rearrange from b h n d back to b n (h d): requires rank 4 and
merges the second and fourth dimensions. -/

def mergeHeadsS (s : Shape) : M Shape :=
  match s with
  | [b, h, n, d] => .ok [b, n, h * d]
  | _ => .error (.runtimeError "einops rearrange expected a rank 4 tensor")

/-- einsum of queries and keys (b h i d, b h j d -> b h i j): the batch,
head and feature sizes must agree. -/

def einsumQKS (q k : Shape) : M Shape :=
  match q, k with
  | [b, h, i, d], [b', h', j, d'] =>
    if b = b' ∧ h = h' ∧ d = d' then .ok [b, h, i, j]
    else .error (.runtimeError "einsum operands do not broadcast")
  | _, _ => .error (.runtimeError "einsum expected rank 4 operands")

/-- einsum of attention weights and values (b h i j, b h j d -> b h i d). -/

def einsumAVS (a v : Shape) : M Shape :=
  match a, v with
  | [b, h, i, j], [b', h', j', d] =>
    if b = b' ∧ h = h' ∧ j = j' then .ok [b, h, i, d]
    else .error (.runtimeError "einsum operands do not broadcast")
  | _, _ => .error (.runtimeError "einsum expected rank 4 operands")

/-- torch.stack([q, k, v], dim=2) on three tensors sharing shape s:
inserts a dimension of size 3 at index 2 (requires rank at least 2). -/

def stackQkvDim2S (s : Shape) : M Shape :=
  match s with
  | b :: h :: rest => .ok (b :: h :: 3 :: rest)
  | _ => .error (.runtimeError "stack dim out of range")

/-- Modelled from the documented contract of the external fused kernel
flash_attn_qkvpacked_func (the spec excludes it as an external
collaborator): input of shape (batch, seqlen, 3, nheads, headdim), output
of shape (batch, seqlen, nheads, headdim).  Only the shape contract is
modelled; the kernel itself never materializes attention weights. -/

def flashAttnQkvPackedS (s : Shape) : M Shape :=
  match s with
  | [b, n, three, h, d] =>
    if three = 3 then .ok [b, n, h, d]
    else .error (.runtimeError "flash attention expected qkv packed with three")
  | _ => .error (.runtimeError "flash attention expected a rank 5 tensor")

/-- torch.stack(l) at dim 0 of a Python list of tensors: requires a
nonempty list of equal shapes and prepends the list length. -/

def stackS : List Shape → M Shape
  | [] => .error (.runtimeError "stack expects a non-empty TensorList")
  | s :: rest =>
    if rest.all (· = s) then .ok ((rest.length + 1) :: s)
    else .error (.runtimeError "stack expects each tensor to be equal size")

/-- torch.cat of a Python list of tensors along dim 1: requires a nonempty
list of tensors of rank at least 2, agreeing on every dimension but
dimension 1, which is summed. -/

def catDim1S : List Shape → M Shape
  | [] => .error (.runtimeError "torch.cat expected a non-empty list of Tensors")
  | s :: rest =>
    match s with
    | b :: n :: tail =>
      if rest.all (fun t => t.length = s.length ∧ t.head? = some b ∧ t.drop 2 = tail) then
        .ok (b :: (n + (rest.map (fun t => t.getD 1 0)).sum) :: tail)
      else .error (.runtimeError "torch.cat sizes of tensors must match except in dimension 1")
    | _ => .error (.runtimeError "torch.cat dimension 1 out of range")

/-- torch.cat of a Python list of tensors along the trailing dimension:
requires a nonempty list agreeing on all leading dimensions; trailing
sizes are summed. -/

def catLastS : List Shape → M Shape
  | [] => .error (.runtimeError "torch.cat expected a non-empty list of Tensors")
  | s :: rest =>
    match s.getLast? with
    | some d =>
      if rest.all (fun t => t.dropLast = s.dropLast ∧ t.getLast?.isSome) then
        .ok (s.dropLast ++ [d + (rest.map (fun t => t.getLast?.getD 0)).sum])
      else .error (.runtimeError "torch.cat sizes of tensors must match except in the last dimension")
    | none => .error (.runtimeError "torch.cat zero-dimensional tensor cannot be concatenated")

/-- torch.cat of a Python list of tensors along dim 0: requires a nonempty
list agreeing on all trailing dimensions; leading sizes are summed. -/

def catDim0S : List Shape → M Shape
  | [] => .error (.runtimeError "torch.cat expected a non-empty list of Tensors")
  | s :: rest =>
    match s with
    | b :: tail =>
      if rest.all (fun t => t.tail = tail ∧ t ≠ []) then
        .ok ((b + (rest.map (fun t => t.headD 0)).sum) :: tail)
      else .error (.runtimeError "torch.cat sizes of tensors must match except in dimension 0")
    | [] => .error (.runtimeError "torch.cat zero-dimensional tensor cannot be concatenated")

/-- Python iterable unpacking of a tensor into two targets (a, b = t):
iterates over dimension 0, so it succeeds exactly when that size is 2,
yielding the two slices; otherwise it raises. -/

def unpack2S : Shape → M (Shape × Shape)
  | [] => .error (.typeError "iteration over a 0-d tensor")
  | b :: rest =>
    if b = 2 then .ok (rest, rest)
    else .error (.valueError "values to unpack mismatch, expected 2")

/-- Indexing x[:, 0]: selects position 0 of dimension 1, which must exist
and be nonempty. -/

def selectDim1At0S : Shape → M Shape
  | b :: n :: rest =>
    if 0 < n then .ok (b :: rest)
    else .error (.runtimeError "index 0 is out of bounds for dimension 1 with size 0")
  | _ => .error (.runtimeError "too many indices for tensor")

/-- Slicing x[:, 1:]: drops the first position of dimension 1 (slicing
clamps, so it never raises on a small size). -/

def dropFirstDim1S : Shape → M Shape
  | b :: n :: rest => .ok (b :: (n - 1) :: rest)
  | _ => .error (.runtimeError "too many indices for tensor")

/-- einops rearrange b ... -> b (...): flattens all dimensions after the
first (requires rank at least 1). -/

def flattenFrom1S : Shape → M Shape
  | [] => .error (.runtimeError "einops rearrange expected at least rank 1")
  | b :: rest => .ok [b, rest.prod]

/-- torch.utils.checkpoint.checkpoint: re-runs the wrapped computation
during backward; the forward value is that of the wrapped computation
(spec section 4.3: a memory/compute trade-off only). -/

def checkpointS (f : Shape → M Shape) (s : Shape) : M Shape := f s

/-! ## Attention block (Attention.forward, identical in
ft_transformer.py lines 46-72 and tab_transformer_pytorch.py lines 78-104) -/

/-- Attention.forward.  Note the source accepts a return_attn argument but
never uses it: both branches end in return self.to_out(out), a single
tensor, and the post-softmax attention matrix is never returned.  The
returnAttn parameter is kept to mirror the signature. -/

def attentionFwdS (dim heads dimHead : ℕ) (useFlashAttn : Bool) (x : Shape)
    (_returnAttn : Bool) : M Shape := do
  let x ← layerNormS dim x
  let qkv ← linearS dim (dimHead * heads * 3) x
  let part ← chunk3LastS qkv
  let q ← splitHeadsS heads part
  let k := q
  let v := q
  if useFlashAttn then
    let packed ← stackQkvDim2S q
    let out ← flashAttnQkvPackedS packed
    let out ← mergeHeadsS out
    linearS (dimHead * heads) dim out
  else
    let sim ← einsumQKS q k
    let attn := sim
    let out ← einsumAVS attn v
    let out ← mergeHeadsS out
    linearS (dimHead * heads) dim out

/-! ## Feed-forward blocks -/

/-- FeedForward of ft_transformer.py lines 15-22 with the default mult 4:
LayerNorm, Linear dim to dim*8, GEGLU (halves the trailing dimension),
Dropout, Linear dim*4 to dim. -/

def ffFwdFTS (dim : ℕ) (s : Shape) : M Shape := do
  let s ← layerNormS dim s
  let s ← linearS dim (dim * 4 * 2) s
  let s ← chunk2GegluS s
  linearS (dim * 4) dim s

/-- PreNorm-wrapped FeedForward of tab_transformer_pytorch.py lines 42-54
and 125 with ff_hidden_mult 2: LayerNorm, Linear dim to dim*2, GELU,
Dropout, Linear dim*2 to dim, Dropout. -/

def ffFwdTabS (dim : ℕ) (s : Shape) : M Shape := do
  let s ← layerNormS dim s
  let s ← linearS dim (dim * 2) s
  linearS (dim * 2) dim s

/-! ## Transformer stack of ft_transformer.py (lines 76-119) -/

/-- One loop iteration of the ft Transformer.forward: the state is the
hidden tensor together with the post_softmax_attns Python list.  With
return_attn requested the source unpacks the single tensor returned by
Attention.forward into two targets. -/

def transformerLayerFTS (dim heads dimHead : ℕ)
    (checkpointGrads useFlashAttn returnAttn : Bool)
    (st : Shape × List Shape) : M (Shape × List Shape) := do
  let (x, attns) := st
  let (attnOut, attns) ←
    if returnAttn then do
      let r ← attentionFwdS dim heads dimHead useFlashAttn x true
      let (attnOut, psa) ← unpack2S r
      pure (attnOut, attns ++ [psa])
    else do
      let attnOut ← attentionFwdS dim heads dimHead useFlashAttn x false
      pure (attnOut, attns)
  if checkpointGrads then do
    let x ← checkpointS (fun _ => binOpShape attnOut x) x
    let fx ← checkpointS (ffFwdFTS dim) x
    let x ← binOpShape fx x
    pure (x, attns)
  else do
    let x ← binOpShape attnOut x
    let fx ← ffFwdFTS dim x
    let x ← binOpShape fx x
    pure (x, attns)

/-- Transformer.forward of ft_transformer.py: depth layer iterations, then
the stacked attention trace when requested. -/

def transformerFwdFTS (dim depth heads dimHead : ℕ)
    (checkpointGrads useFlashAttn : Bool) (x : Shape) (returnAttn : Bool) :
    M (Shape × Option Shape) := do
  let (x, attns) ← (List.range depth).foldlM
    (fun st _ => transformerLayerFTS dim heads dimHead checkpointGrads useFlashAttn returnAttn st)
    (x, [])
  if returnAttn then do
    let tr ← stackS attns
    pure (x, some tr)
  else
    pure (x, none)

/-! ## Transformer stack of tab_transformer_pytorch.py (lines 106-148) -/

/-- One loop iteration of the tab Transformer.forward.  The sub-blocks are
PreNorm wrappers; PreNorm.forward takes no keyword arguments, so the call
attn(x, return_attn=True) in the capture branch raises a TypeError. -/

def transformerLayerTabS (dim heads dimHead : ℕ)
    (checkpointGrads useFlashAttn returnAttn : Bool)
    (st : Shape × List Shape) : M (Shape × List Shape) := do
  let (x, attns) := st
  let (x, attns) ←
    if returnAttn then
      .error (.typeError "forward() got an unexpected keyword argument return_attn")
    else do
      let nx ← layerNormS dim x
      let a ← attentionFwdS dim heads dimHead useFlashAttn nx false
      let x ← binOpShape x a
      pure (x, attns)
  if checkpointGrads then do
    let fx ← checkpointS (ffFwdTabS dim) x
    let x ← binOpShape x fx
    pure (x, attns)
  else do
    let fx ← ffFwdTabS dim x
    let x ← binOpShape x fx
    pure (x, attns)

/-- Transformer.forward of tab_transformer_pytorch.py. -/

def transformerFwdTabS (dim depth heads dimHead : ℕ)
    (checkpointGrads useFlashAttn : Bool) (x : Shape) (returnAttn : Bool) :
    M (Shape × Option Shape) := do
  let (x, attns) ← (List.range depth).foldlM
    (fun st _ => transformerLayerTabS dim heads dimHead checkpointGrads useFlashAttn returnAttn st)
    (x, [])
  if returnAttn then do
    let tr ← stackS attns
    pure (x, some tr)
  else
    pure (x, none)

/-! ## FTTransformer (ft_transformer.py lines 135-249) -/

/-- Construction-time configuration of FTTransformer.  Cardinalities in the
forward-pass shape model are natural numbers (construction has already
checked positivity). -/

structure FTConfig where
  categories : List ℕ
  numContinuous : ℕ
  dim : ℕ
  depth : ℕ
  heads : ℕ
  dimHead : ℕ := 16
  dimOut : ℕ := 1
  numSpecialTokens : ℕ := 2
  checkpointGrads : Bool := false
  useFlashAttn : Bool := false

/-- self.num_categories. -/

def FTConfig.numCategories (c : FTConfig) : ℕ := c.categories.length

/-- self.num_unique_categories. -/

def FTConfig.numUniqueCategories (c : FTConfig) : ℕ := c.categories.sum

/-- The two assert statements of FTTransformer.__init__ (lines 153-154);
cardinalities are Python ints, so they are taken as integers here. -/

def ftInitChecks (categories : List ℤ) (numContinuous : ℕ) : M Unit := do
  assertS (categories.all (fun n => decide (0 < n))) "number of each category must be positive"
  assertS (decide (0 < categories.length + numContinuous)) "input shape must not be null"

/-- NumericalEmbedder.forward (ft_transformer.py lines 123-131):
rearrange b n -> b n 1 (requires rank 2), then x * weights + biases with
weights and biases of shape (num_numerical_types, dim), under broadcasting. -/

def numericalEmbedderS (dim numCont : ℕ) (x : Shape) : M Shape := do
  let r ← match x with
    | [b, n] => .ok ([b, n, 1] : Shape)
    | _ => .error (.runtimeError "einops rearrange b n -> b n 1 expected a rank 2 tensor")
  let m ← binOpShape r [numCont, dim]
  binOpShape m [numCont, dim]

/-- FTTransformer.forward (lines 209-249).  Note: the only shape assert is
on the categorical input; the continuous input is never checked. -/

def ftForwardS (cfg : FTConfig) (xCateg xNumer : Shape) (returnAttn : Bool) :
    M (Shape × Option Shape) := do
  let lastC ← shapeLastS xCateg
  assertS (lastC = cfg.numCategories)
    ("you must pass in " ++ toString cfg.numCategories ++ " values for your categories input")
  let categPart ←
    if 0 < cfg.numUniqueCategories then do
      let s ← binOpShape xCateg [cfg.numCategories]
      pure (some (s ++ [cfg.dim]))
    else pure none
  let numerPart ←
    if 0 < cfg.numContinuous then do
      let s ← numericalEmbedderS cfg.dim cfg.numContinuous xNumer
      pure (some s)
    else pure none
  let x ← catDim1S ((categPart.toList) ++ (numerPart.toList))
  let b ← sizeDim0S x
  let x ← catDim1S [[b, 1, cfg.dim], x]
  let (x, attns) ← transformerFwdFTS cfg.dim cfg.depth cfg.heads cfg.dimHead
    cfg.checkpointGrads cfg.useFlashAttn x returnAttn
  let x ← selectDim1At0S x
  let x ← layerNormS cfg.dim x
  let logits ← linearS cfg.dim cfg.dimOut x
  pure (logits, attns)

/-! ## TabTransformer (tab_transformer_pytorch.py lines 174-300) -/

/-- Construction-time configuration of TabTransformer. -/

structure TabConfig where
  categories : List ℕ
  numContinuous : ℕ
  dim : ℕ
  depth : ℕ
  heads : ℕ
  dimHead : ℕ := 16
  dimOut : ℕ := 1
  mlpHiddenMults : List ℕ := [4, 2]
  numSpecialTokens : ℕ := 2
  continuousMeanStd : Option Shape := none
  useSharedCategEmbed : Bool := true
  sharedCategDimDivisor : ℕ := 8
  checkpointGrads : Bool := false
  useFlashAttn : Bool := false

/-- self.num_categories. -/

def TabConfig.numCategories (c : TabConfig) : ℕ := c.categories.length

/-- self.num_unique_categories. -/

def TabConfig.numUniqueCategories (c : TabConfig) : ℕ := c.categories.sum

/-- shared_embed_dim = 0 if not use_shared_categ_embed else int(dim // shared_categ_dim_divisor). -/

def TabConfig.sharedEmbedDim (c : TabConfig) : ℕ :=
  if c.useSharedCategEmbed then c.dim / c.sharedCategDimDivisor else 0

/-- The validation performed by TabTransformer.__init__ (lines 196-238):
the two asserts shared with FTTransformer, and, only when
num_continuous > 0 and statistics were supplied, the continuous_mean_std
shape assert. -/

def tabInitChecks (categories : List ℤ) (numContinuous : ℕ)
    (continuousMeanStdShape : Option Shape) : M Unit := do
  assertS (categories.all (fun n => decide (0 < n))) "number of each category must be positive"
  assertS (decide (0 < categories.length + numContinuous)) "input shape must not be null"
  if 0 < numContinuous then
    match continuousMeanStdShape with
    | some s =>
      assertS (s = [numContinuous, 2])
        ("continuous_mean_std must have a shape of (" ++ toString numContinuous
          ++ ", 2) where the last dimension contains the mean and variance respectively")
    | none => pure ()
  else pure ()

/-- TabTransformer.forward (lines 262-300).  The categorical branch runs
first (including its assert), then the continuous assert, each naming its
configured count; the attns variable is only bound inside the categorical
branch, so returning it without that branch raises. -/

def tabForwardS (cfg : TabConfig) (xCateg xCont : Shape) (returnAttn : Bool) :
    M (Shape × Option Shape) := do
  let lastC ← shapeLastS xCateg
  assertS (lastC = cfg.numCategories)
    ("you must pass in " ++ toString cfg.numCategories ++ " values for your categories input")
  let (categPart, attns) ←
    if 0 < cfg.numUniqueCategories then do
      let s ← binOpShape xCateg [cfg.numCategories]
      let ce := s ++ [cfg.dim - cfg.sharedEmbedDim]
      let ce ←
        if cfg.useSharedCategEmbed then do
          let b ← sizeDim0S ce
          catLastS [ce, [b, cfg.numCategories, cfg.sharedEmbedDim]]
        else pure ce
      let (x, attns) ← transformerFwdTabS cfg.dim cfg.depth cfg.heads cfg.dimHead
        cfg.checkpointGrads cfg.useFlashAttn ce returnAttn
      let flat ← flattenFrom1S x
      pure (some flat, attns)
    else pure (none, none)
  let idx1 ← shapeIdx1S xCont
  assertS (idx1 = cfg.numContinuous)
    ("you must pass in " ++ toString cfg.numContinuous ++ " values for your continuous input")
  let contPart ←
    if 0 < cfg.numContinuous then do
      let s ←
        match cfg.continuousMeanStd with
        | some msShape => do
          let comp ← match msShape.getLast? with
            | some 2 => .ok msShape.dropLast
            | _ => .error (.valueError "values to unpack mismatch, expected 2")
          let t ← binOpShape xCont comp
          binOpShape t comp
        | none => pure xCont
      let n ← layerNormS cfg.numContinuous s
      pure (some n)
    else pure none
  let x ← catLastS ((categPart.toList) ++ (contPart.toList))
  let inputSize := cfg.dim * cfg.numCategories + cfg.numContinuous
  let dims := inputSize :: (cfg.mlpHiddenMults.map (inputSize * ·)) ++ [cfg.dimOut]
  let logits ← (dims.zip dims.tail).foldlM (fun s p => linearS p.1 p.2 s) x
  if returnAttn then
    match attns with
    | some a => pure (logits, some a)
    | none => .error (.valueError "local variable attns referenced before assignment")
  else pure (logits, none)

/-! ## Abstract residual composition of the transformer stacks

For the structural claim about the layer composition the attention and
feed-forward sub-blocks are abstract functions on an additive type; the
definitions mirror the non-capture, non-checkpoint loop bodies of the two
Transformer.forward implementations. -/

/-- Loop body of ft_transformer.py Transformer.forward with return_attn
False and checkpoint_grads False: attn_out = attn(x); x = attn_out + x;
x = ff(x) + x, folded over the layers. -/

def transformerFoldFT {α : Type} [Add α] (layers : List ((α → α) × (α → α)))
    (x : α) : α :=
  layers.foldl (fun x l => let y := l.1 x + x; l.2 y + y) x

/-- Loop body of tab_transformer_pytorch.py Transformer.forward with
return_attn False and checkpoint_grads False: x = x + attn(x);
x = x + ff(x), folded over the layers. -/

def transformerFoldTab {α : Type} [Add α] (layers : List ((α → α) × (α → α)))
    (x : α) : α :=
  layers.foldl (fun x l => let y := x + l.1 x; y + l.2 y) x

/-- The composition as the specification words it: for each layer in
order, x = x + Attention(x) followed by x = x + FeedForward(x). -/

def residualCompositionSpec {α : Type} [Add α]
    (layers : List ((α → α) × (α → α))) (x : α) : α :=
  layers.foldl (fun x l => let y := x + l.1 x; y + l.2 y) x

/-- A concrete FTTransformer configuration (one categorical field of
cardinality 4, one continuous field, dim 4, depth 2, one head). -/

def ftCfgC4 : FTConfig :=
  { categories := [4], numContinuous := 1, dim := 4, depth := 2, heads := 1, dimHead := 4 }

/-- A concrete FTTransformer configuration (one categorical field of
cardinality 3, no continuous fields, dim 4, depth 1, one head). -/

def ftCfgC1 : FTConfig :=
  { categories := [3], numContinuous := 0, dim := 4, depth := 1, heads := 1, dimHead := 4 }

/-- A concrete TabTransformer configuration (one categorical field of
cardinality 2, no continuous fields, dim 8, depth 1, two heads). -/

def tabCfgC1 : TabConfig :=
  { categories := [2], numContinuous := 0, dim := 8, depth := 1, heads := 2, dimHead := 4 }

/-- The configuration ftCfgC1 with the fused attention path selected. -/

def ftCfgFlash : FTConfig :=
  { categories := [3], numContinuous := 0, dim := 4, depth := 1, heads := 1,
    dimHead := 4, useFlashAttn := true }

/-- A concrete TabTransformer configuration (one categorical field of
cardinality 2, one continuous field, dim 8, depth 1, two heads). -/

def tabCfgC7 : TabConfig :=
  { categories := [2], numContinuous := 1, dim := 8, depth := 1, heads := 2, dimHead := 4 }

/-- A concrete FTTransformer configuration (one categorical field of
cardinality 3, TWO continuous fields, dim 4, depth 1, one head). -/

def ftCfgC7 : FTConfig :=
  { categories := [3], numContinuous := 2, dim := 4, depth := 1, heads := 1, dimHead := 4 }

/-! ## TabTransformer.get_embeddings (tab_transformer_pytorch.py lines
303-356) and the dynamic attributes of the instance

Python resolves attribute reads dynamically, so the attributes defined by
TabTransformer.__init__ are embedded as a list of names and every self.X
read in get_embeddings that is not a plain module call is guarded by a
lookup in that list. -/

/-- The attribute names TabTransformer.__init__ defines on the instance
(self assignments and register_buffer calls), as a function of the
configuration; conditional assignments mirror the conditionals of
__init__ (lines 196-260). -/

def tabDefinedAttrs (cfg : TabConfig) : List String :=
  ["num_categories", "num_unique_categories", "num_special_tokens",
    "category_embed", "use_shared_categ_embed", "transformer", "mlp"]
  ++ (if cfg.useSharedCategEmbed then ["shared_category_embed"] else [])
  ++ (if 0 < cfg.numUniqueCategories then ["categories_offset"] else [])
  ++ (if 0 < cfg.numContinuous then ["continuous_mean_std", "norm"] else [])

/-- Python attribute read self.name: AttributeError when __init__ never
defined the name. -/

def tabRequireAttr (cfg : TabConfig) (name : String) : M Unit :=
  if name ∈ tabDefinedAttrs cfg then .ok () else .error (.attributeError name)

/-- The unchunked body of TabTransformer.get_embeddings (lines 308-326),
also executed once per chunk by the chunked branch (lines 336-353).  The
body is written for an FTTransformer (it reads categorical_embeds,
numerical_embedder and cls_token, none of which TabTransformer defines),
so each such read is guarded; the shape arithmetic past an undefined read
mirrors the FTTransformer computation but is unreachable. -/

def tabGetEmbBodyS (cfg : TabConfig) (xCateg xCont : Shape) : M Shape := do
  let categPart ←
    if 0 < cfg.numUniqueCategories then do
      tabRequireAttr cfg "categories_offset"
      let s ← binOpShape xCateg [cfg.numCategories]
      tabRequireAttr cfg "categorical_embeds"
      pure (some (s ++ [cfg.dim]))
    else pure none
  let contPart ←
    if 0 < cfg.numContinuous then do
      tabRequireAttr cfg "numerical_embedder"
      let s ← numericalEmbedderS cfg.dim cfg.numContinuous xCont
      pure (some s)
    else pure none
  let x ← catDim1S (categPart.toList ++ contPart.toList)
  let b ← sizeDim0S x
  tabRequireAttr cfg "cls_token"
  let x ← catDim1S [[b, 1, cfg.dim], x]
  let (x, _) ← transformerFwdTabS cfg.dim cfg.depth cfg.heads cfg.dimHead
    cfg.checkpointGrads cfg.useFlashAttn x false
  dropFirstDim1S x

/-- The per-chunk row counts of the Python loop
for i in range(0, b, batch_size): x[i : min(i + batch_size, b)]. -/

def chunkRowCounts (b bs : ℕ) : List ℕ :=
  (List.range ((b + bs - 1) / bs)).map (fun i => min bs (b - i * bs))

/-- TabTransformer.get_embeddings (lines 303-356): either the unchunked
body, or the loop over chunks followed by torch.cat along dim 0 of the
collected per-chunk results (a Python list, empty when the batch is
empty). -/

def tabGetEmbeddingsS (cfg : TabConfig) (xCateg xCont : Shape)
    (batchSize : Option ℕ) : M Shape :=
  match batchSize with
  | none => tabGetEmbBodyS cfg xCateg xCont
  | some bs => do
    let b ← sizeDim0S xCateg
    if bs = 0 then .error (.valueError "range() arg 3 must not be zero")
    else do
      let results ← (chunkRowCounts b bs).mapM
        (fun len => tabGetEmbBodyS cfg (len :: xCateg.tail) (len :: xCont.tail))
      catDim0S results

/-! ## Data-level model of FTTransformer.get_embeddings
(ft_transformer.py lines 251-304)

Tensor entries are rationals.  The scalar primitives of the framework that
are not rational functions (exp inside softmax, gelu, the reciprocal
square root inside layer norm, and the float constant dim_head ** -0.5)
are parameters of the model, so every definition stays executable.  A
batched tensor operation of this architecture never couples two distinct
batch indices (every einsum carries the batch index b pointwise and every
normalization acts inside one token), so batched operations are embedded
as maps over the batch dimension.  Dropout is evaluation-mode (identity),
as the spec states dropout is active only in training. -/

/-- A vector of rationals (one tensor row). -/

abbrev Vec := List ℚ

/-- A matrix of rationals (for example a weight matrix, or the token
sequence of one sample). -/

abbrev Mat := List Vec

/-- Dot product. -/

def dotQ (a b : Vec) : ℚ := (List.zipWith (· * ·) a b).sum

/-- Elementwise sum of two vectors. -/

def vaddQ (a b : Vec) : Vec := List.zipWith (· + ·) a b

/-- Elementwise sum of two token matrices (the tensor + of residual
connections, restricted to one sample). -/

def maddQ (a b : Mat) : Mat := List.zipWith vaddQ a b

/-- The scalar primitives delegated to the framework, as parameters. -/

structure ExtOps where
  exp : ℚ → ℚ
  gelu : ℚ → ℚ
  rsqrt : ℚ → ℚ
  attnScale : ℚ

/-- Learned affine parameters of one nn.LayerNorm. -/

structure LayerNormParams where
  gamma : Vec
  beta : Vec

/-- nn.Linear with bias: y = W x + b, with W of shape (out, in). -/

def linearQ (w : Mat) (b : Vec) (v : Vec) : Vec :=
  vaddQ (w.map (fun r => dotQ r v)) b

/-- nn.Linear without bias (to_qkv and to_out are bias = False). -/

def linearNB (w : Mat) (v : Vec) : Vec :=
  w.map (fun r => dotQ r v)

/-- nn.LayerNorm over the trailing dimension of one token: subtract the
mean, multiply by the reciprocal square root of the biased variance plus
eps = 1e-5, scale by gamma and shift by beta. -/

def layerNormQ (ops : ExtOps) (p : LayerNormParams) (v : Vec) : Vec :=
  let n : ℚ := v.length
  let mu := v.sum / n
  let vr := ((v.map (fun x => (x - mu) * (x - mu))).sum) / n
  let inv := ops.rsqrt (vr + 1 / 100000)
  List.zipWith (fun gb x => gb.1 * ((x - mu) * inv) + gb.2) (p.gamma.zip p.beta) v

/-- Row softmax: exponentiate and normalize by the row sum. -/

def softmaxQ (ops : ExtOps) (row : Vec) : Vec :=
  let e := row.map ops.exp
  e.map (· / e.sum)

/-- GEGLU.forward on one token: x, gates = x.chunk(2, dim=-1);
x * F.gelu(gates).  The trailing size is even in every reachable use;
torch.chunk gives the first part the ceiling half. -/

def gegluQ (g : ℚ → ℚ) (v : Vec) : Vec :=
  let k := (v.length + 1) / 2
  List.zipWith (fun a b => a * g b) (v.take k) (v.drop k)

/-- Learned parameters of one Attention block. -/

structure AttnParams where
  norm : LayerNormParams
  toQkv : Mat
  toOut : Mat
  heads : ℕ
  dimHead : ℕ

/-- Learned parameters of one ft FeedForward block (LayerNorm, Linear dim
to dim*mult*2, GEGLU, Linear dim*mult to dim). -/

structure FFParams where
  norm : LayerNormParams
  w1 : Mat
  b1 : Vec
  w2 : Mat
  b2 : Vec

/-- Attention.forward on one sample (explicit, non-fused path): normalize
each token, project to packed qkv, split into per-head queries, keys,
values, apply scaled dot-product attention with softmax per query row,
concatenate the per-head outputs per token and project out. -/

def attentionSampleQ (ops : ExtOps) (p : AttnParams) (ts : Mat) : Mat :=
  let xs := ts.map (layerNormQ ops p.norm)
  let qkv := xs.map (linearNB p.toQkv)
  let inner := p.heads * p.dimHead
  let q := qkv.map (fun v => v.take inner)
  let k := qkv.map (fun v => (v.drop inner).take inner)
  let v := qkv.map (fun v => v.drop (2 * inner))
  let slice := fun (m : Mat) (h : ℕ) => m.map (fun t => (t.drop (h * p.dimHead)).take p.dimHead)
  let headOut := fun (h : ℕ) =>
    let qh := slice q h
    let kh := slice k h
    let vh := slice v h
    qh.map (fun qi =>
      let row := kh.map (fun kj => dotQ qi kj * ops.attnScale)
      let w := softmaxQ ops row
      (List.zipWith (fun wj vj => vj.map (wj * ·)) w vh).foldr vaddQ
        (List.replicate p.dimHead 0))
  (List.range ts.length).map (fun i =>
    linearNB p.toOut (((List.range p.heads).map (fun h => (headOut h).getD i [])).flatten))

/-- ft FeedForward on one sample, applied tokenwise. -/

def ffSampleQ (ops : ExtOps) (p : FFParams) (ts : Mat) : Mat :=
  ts.map (fun t => linearQ p.w2 p.b2 (gegluQ ops.gelu (linearQ p.w1 p.b1 (layerNormQ ops p.norm t))))

/-- Learned parameters of one (Attention, FeedForward) layer pair. -/

structure TLayerParams where
  attn : AttnParams
  ff : FFParams

/-- ft Transformer.forward on one sample with return_attn False:
x = attn(x) + x; x = ff(x) + x, folded over the layers. -/

def transformerSampleQ (ops : ExtOps) (layers : List TLayerParams) (ts : Mat) : Mat :=
  layers.foldl (fun x l =>
    let x1 := maddQ (attentionSampleQ ops l.attn x) x
    maddQ (ffSampleQ ops l.ff x1) x1) ts

/-- The learned state of an FTTransformer used by get_embeddings:
the configuration counters, the offset table and shared embedding table,
the numerical embedder parameters, the CLS token, the transformer layers,
and the external scalar primitives. -/

structure FTModelQ where
  numUnique : ℕ
  numContinuous : ℕ
  categoriesOffsetQ : List ℤ
  categTable : Mat
  numWeights : Mat
  numBiases : Mat
  clsToken : Vec
  layers : List TLayerParams
  ops : ExtOps

/-- NumericalEmbedder.forward (lines 123-131) at data level: each scalar
value of field i becomes value * weights_i + biases_i. -/

def numericalEmbedderFwdQ (w b : Mat) (x : List Vec) : List Mat :=
  x.map (fun row => (row.zip (w.zip b)).map
    (fun p => vaddQ (p.2.1.map (p.1 * ·)) p.2.2))

/-- Shared embedding lookup of one offset categorical id (nn.Embedding on
a long tensor; valid ids are nonnegative and within the table). -/

def embedLookupQ (table : Mat) (id : ℤ) : Vec := table.getD id.toNat []

/-- The unchunked body of FTTransformer.get_embeddings (lines 256-274),
also executed once per chunk by the chunked branch: offset and embed the
categorical codes when present, numerically embed the continuous values
when present, concatenate along the token axis, prepend the CLS token,
run the transformer, drop the CLS position. -/

def ftGetEmbBodyQ (m : FTModelQ) (xc : List (List ℤ)) (xn : List Vec) :
    M (List Mat) := do
  let categPart : Option (List Mat) :=
    if 0 < m.numUnique then
      some (xc.map (fun row =>
        (List.zipWith (· + ·) row m.categoriesOffsetQ).map (embedLookupQ m.categTable)))
    else none
  let contPart : Option (List Mat) :=
    if 0 < m.numContinuous then
      some (numericalEmbedderFwdQ m.numWeights m.numBiases xn)
    else none
  let x ← match categPart, contPart with
    | some a, some b => pure (List.zipWith (· ++ ·) a b)
    | some a, none => pure a
    | none, some b => pure b
    | none, none => Except.error (.runtimeError "torch.cat expected a non-empty list of Tensors")
  let x := x.map (fun ts => m.clsToken :: ts)
  let x := x.map (transformerSampleQ m.ops m.layers)
  pure (x.map (fun ts => ts.drop 1))

/-- The chunk loop of FTTransformer.get_embeddings (lines 277-301):
for i in range(0, b, batch_size), run the body on rows i to
i+batch_size and collect the per-chunk results into a Python list.
A zero step makes range raise. -/

def ftGetEmbChunksQ (m : FTModelQ) (bs : ℕ) (xc : List (List ℤ)) (xn : List Vec) :
    M (List (List Mat)) :=
  match bs with
  | 0 => .error (.valueError "range() arg 3 must not be zero")
  | b' + 1 =>
    if hxc : xc = [] then .ok []
    else do
      let headChunk ← ftGetEmbBodyQ m (xc.take (b' + 1)) (xn.take (b' + 1))
      let rest ← ftGetEmbChunksQ m (b' + 1) (xc.drop (b' + 1)) (xn.drop (b' + 1))
      pure (headChunk :: rest)
  termination_by xc.length
  decreasing_by
    simp only [List.length_drop]
    have : 0 < xc.length := List.length_pos.mpr hxc
    omega

/-- torch.cat(embeddings, dim=0) on the collected Python list of chunk
results: raises on an empty list, otherwise concatenates in order. -/

def catChunksQ (l : List (List Mat)) : M (List Mat) :=
  match l with
  | [] => .error (.runtimeError "torch.cat expected a non-empty list of Tensors")
  | _ => .ok l.flatten

/-- FTTransformer.get_embeddings (lines 251-304): the unchunked body when
batch_size is None, otherwise the chunk loop followed by torch.cat along
the batch dimension. -/

def ftGetEmbeddingsQ (m : FTModelQ) (xc : List (List ℤ)) (xn : List Vec)
    (batchSize : Option ℕ) : M (List Mat) :=
  match batchSize with
  | none => ftGetEmbBodyQ m xc xn
  | some bs => do
    let chunks ← ftGetEmbChunksQ m bs xc xn
    catChunksQ chunks

/-- The per-sample computation the body performs on one (categorical row,
continuous row) input pair. -/

def ftRowQ (m : FTModelQ) (p : List ℤ × Vec) : Mat :=
  let toks :=
    (if 0 < m.numUnique then
      (List.zipWith (· + ·) p.1 m.categoriesOffsetQ).map (embedLookupQ m.categTable)
    else [])
    ++ (if 0 < m.numContinuous then
      (p.2.zip (m.numWeights.zip m.numBiases)).map
        (fun q => vaddQ (q.2.1.map (q.1 * ·)) q.2.2)
    else [])
  (transformerSampleQ m.ops m.layers (m.clsToken :: toks)).drop 1

/-- Slicing a list into consecutive chunks of size bs (the mathematical
counterpart of the chunk loop). -/

def chunksOf (bs : ℕ) : List α → List (List α)
  | [] => []
  | a :: t =>
    match bs with
    | 0 => []
    | b' + 1 => (a :: t).take (b' + 1) :: chunksOf (b' + 1) ((a :: t).drop (b' + 1))
  termination_by l => l.length
  decreasing_by
    simp only [List.length_drop, List.length_cons]
    omega

/-- A concrete TabTransformer configuration with one categorical field
(cardinality 2), used for the embedding-extraction claims. -/
def tabCfgC3 : TabConfig :=
  { categories := [2], numContinuous := 0, dim := 4, depth := 1, heads := 1, dimHead := 4 }

/-- A tiny concrete FTTransformer data-level model: one categorical field
summing to 2 unique categories with 2 special tokens, no continuous
fields, scalar embedding dimension, depth 0. -/
def ftModelEx : FTModelQ :=
  { numUnique := 2
    numContinuous := 0
    categoriesOffsetQ := [2]
    categTable := [[0], [0], [1], [2]]
    numWeights := []
    numBiases := []
    clsToken := [0]
    layers := []
    ops := { exp := fun _ => 1, gelu := fun _ => 1, rsqrt := fun _ => 1, attnScale := 1 } }

/-! ## Lemmas and claim theorems -/

theorem cumsumZ_length (l : List ℤ) : (cumsumZ l).length = l.length := by
  induction l with
  | nil => simp [cumsumZ]
  | cons a t ih => simp [cumsumZ, ih]

theorem cumsumZ_getD (l : List ℤ) (i : ℕ) (h : i < l.length) :
    (cumsumZ l).getD i 0 = (l.take (i + 1)).sum := by
  induction l generalizing i with
  | nil => simp at h
  | cons a t ih =>
    cases i with
    | zero => simp [cumsumZ]
    | succ j =>
      have hj : j < t.length := by simpa using h
      have hjlen : j < (cumsumZ t).length := by rw [cumsumZ_length]; exact hj
      calc (cumsumZ (a :: t)).getD (j + 1) 0
          = ((cumsumZ t).map (a + ·)).getD j 0 := by simp [cumsumZ, List.getD]
        _ = a + (cumsumZ t).getD j 0 := by
            rw [List.getD_eq_getElem _ _ (by simpa using hjlen),
              List.getD_eq_getElem _ _ hjlen]
            simp
        _ = a + (t.take (j + 1)).sum := by rw [ih j hj]
        _ = ((a :: t).take (j + 1 + 1)).sum := by simp [List.take]

theorem categoriesOffsetZ_length (categories : List ℤ) (nst : ℤ) :
    (categoriesOffsetZ categories nst).length = categories.length := by
  simp [categoriesOffsetZ, cumsumZ_length]

theorem categoriesOffsetZ_getD (categories : List ℤ) (nst : ℤ) (i : ℕ)
    (h : i < categories.length) :
    (categoriesOffsetZ categories nst).getD i 0 = nst + (categories.take i).sum := by
  have hlen : (cumsumZ (nst :: categories)).length = categories.length + 1 := by
    simp [cumsumZ_length]
  have hi : i < (categoriesOffsetZ categories nst).length := by
    rwa [categoriesOffsetZ_length]
  have hi' : i < (cumsumZ (nst :: categories)).length := by omega
  have hdl : (categoriesOffsetZ categories nst).getD i 0
      = (cumsumZ (nst :: categories)).getD i 0 := by
    rw [List.getD_eq_getElem _ _ hi, List.getD_eq_getElem _ _ hi']
    simp [categoriesOffsetZ, List.getElem_dropLast]
  rw [hdl, cumsumZ_getD _ _ (by simpa using Nat.lt_succ_of_lt h)]
  simp [List.take]

/-- C5: for every field schema and special-token count, the derived category
offset table has one entry per categorical field and satisfies
offset 0 = num_special_tokens and offset (i+1) = offset i + cardinality i,
exactly as both constructors compute it. -/

theorem categories_offset_recurrence (categories : List ℤ) (nst : ℤ) :
    (categoriesOffsetZ categories nst).length = categories.length ∧
    (categories ≠ [] → (categoriesOffsetZ categories nst).getD 0 0 = nst) ∧
    (∀ i : ℕ, i + 1 < categories.length →
      (categoriesOffsetZ categories nst).getD (i + 1) 0
        = (categoriesOffsetZ categories nst).getD i 0 + categories.getD i 0) := by
  refine ⟨categoriesOffsetZ_length categories nst, ?_, ?_⟩
  · intro hne
    have hlen : 0 < categories.length := List.length_pos.mpr hne
    rw [categoriesOffsetZ_getD categories nst 0 hlen]
    simp
  · intro i hi
    have hi' : i < categories.length := by omega
    rw [categoriesOffsetZ_getD categories nst (i + 1) hi,
      categoriesOffsetZ_getD categories nst i hi']
    have : (categories.take (i + 1)).sum
        = (categories.take i).sum + categories.getD i 0 := by
      rw [List.getD_eq_getElem _ _ hi']
      rw [List.sum_take_succ _ _ hi']
    rw [this]
    ring

/-- Witness for categories_offset_recurrence at the spec example
categories = [3, 5], num_special_tokens = 2 (offsets [2, 5]). -/

theorem categories_offset_recurrence_witness :
    (([3, 5] : List ℤ) ≠ [] ∧ 0 + 1 < ([3, 5] : List ℤ).length) ∧
    ((categoriesOffsetZ [3, 5] 2).getD 0 0 = 2 ∧
      (categoriesOffsetZ [3, 5] 2).getD 1 0
        = (categoriesOffsetZ [3, 5] 2).getD 0 0 + ([3, 5] : List ℤ).getD 0 0) :=
  ⟨⟨by decide, by decide⟩,
    ⟨(categories_offset_recurrence [3, 5] 2).2.1 (by decide),
      (categories_offset_recurrence [3, 5] 2).2.2 0 (by decide)⟩⟩

/-- C6: for every valid categorical code (0 ≤ code < cardinality of field i,
all cardinalities positive, nonnegative special-token count), the global
lookup id code + offset i computed by both forward passes lies in
the interval from num_special_tokens (inclusive) to
total_tokens = sum of cardinalities + num_special_tokens (exclusive), so the
shared embedding-table lookup is in bounds. -/

theorem category_lookup_id_in_bounds (categories : List ℤ) (nst : ℤ) (i : ℕ)
    (code : ℤ) (hpos : ∀ c ∈ categories, 0 < c)
    (hi : i < categories.length) (hc0 : 0 ≤ code)
    (hc : code < categories.getD i 0) :
    nst ≤ code + (categoriesOffsetZ categories nst).getD i 0 ∧
    code + (categoriesOffsetZ categories nst).getD i 0 < categories.sum + nst := by
  rw [categoriesOffsetZ_getD categories nst i hi]
  have htake : 0 ≤ (categories.take i).sum :=
    List.sum_nonneg fun c hc => le_of_lt (hpos c (List.mem_of_mem_take hc))
  constructor
  · nlinarith
  · have hsplit : (categories.take (i + 1)).sum
        = (categories.take i).sum + categories.getD i 0 := by
      rw [List.getD_eq_getElem _ _ hi]
      rw [List.sum_take_succ _ _ hi]
    have hdrop : 0 ≤ (categories.drop (i + 1)).sum :=
      List.sum_nonneg fun c hc => le_of_lt (hpos c (List.mem_of_mem_drop hc))
    have htotal : categories.sum
        = (categories.take (i + 1)).sum + (categories.drop (i + 1)).sum := by
      rw [← List.sum_append, List.take_append_drop]
    nlinarith

/-- Witness for category_lookup_id_in_bounds: categories [3, 5],
num_special_tokens 2, field 1, raw code 4 (global id 9, total tokens 10). -/

theorem category_lookup_id_in_bounds_witness :
    ((∀ c ∈ ([3, 5] : List ℤ), 0 < c) ∧
      1 < ([3, 5] : List ℤ).length ∧ (0 : ℤ) ≤ 4 ∧
      (4 : ℤ) < ([3, 5] : List ℤ).getD 1 0) ∧
    ((2 : ℤ) ≤ 4 + (categoriesOffsetZ [3, 5] 2).getD 1 0 ∧
      4 + (categoriesOffsetZ [3, 5] 2).getD 1 0 < ([3, 5] : List ℤ).sum + 2) :=
  ⟨⟨by decide, by decide, by decide, by decide⟩,
    category_lookup_id_in_bounds [3, 5] 2 1 4 (by decide)
      (by decide) (by decide) (by decide)⟩

/-- C4 (code bug evaluation): without attention capture both transformer
stacks compute exactly the residual composition the spec states (for
tensors, whose addition is commutative), but the final hidden state is NOT
the same when capture is requested: at a concrete model the non-capture
call succeeds while the capturing call raises, because Attention.forward
never returns the attention matrix that Transformer.forward tries to
unpack. -/

theorem transformer_residual_composition_and_capture_mismatch :
    (∀ (α : Type) [AddCommMonoid α] (layers : List ((α → α) × (α → α))) (x : α),
      transformerFoldFT layers x = residualCompositionSpec layers x) ∧
    (∀ (α : Type) [AddCommMonoid α] (layers : List ((α → α) × (α → α))) (x : α),
      transformerFoldTab layers x = residualCompositionSpec layers x) ∧
    ftForwardS ftCfgC4 [3, 1] [3, 1] false = .ok ([3, 1], none) ∧
    ftForwardS ftCfgC4 [3, 1] [3, 1] true
      = .error (.valueError "values to unpack mismatch, expected 2") := by
  refine ⟨?_, ?_, rfl, rfl⟩
  · intro α _ layers x
    induction layers generalizing x with
    | nil => rfl
    | cons l t ih =>
      simp only [transformerFoldFT, residualCompositionSpec, List.foldl] at ih ⊢
      rw [add_comm (l.1 x) x, add_comm (l.2 (x + l.1 x)) (x + l.1 x)]
      exact ih _
  · intro α _ layers x
    rfl

/-- C1 (code bug evaluation): requesting attention maps does not return a
trace.  For FTTransformer (batch 1, depth 1, no flash attention) the
forward call raises a ValueError because Transformer.forward unpacks the
single tensor Attention.forward returns; for TabTransformer it raises a
TypeError because the PreNorm wrapper rejects the return_attn keyword. -/

theorem attention_trace_request_fails :
    ftForwardS ftCfgC1 [1, 1] [1, 0] true
      = .error (.valueError "values to unpack mismatch, expected 2") ∧
    tabForwardS tabCfgC1 [3, 1] [3, 0] true
      = .error (.typeError "forward() got an unexpected keyword argument return_attn") :=
  ⟨rfl, rfl⟩

/-- C2 (code bug evaluation): with use_flash_attn enabled, a forward call
requesting attention maps on a batch of size 2 is neither rejected nor
resolved through the explicit path: it returns normally, with a bogus
trace assembled from tensor slices (here of shape [depth, seq_len, dim]
= [1, 2, 4]) instead of the per-layer (batch, heads, seq_len, seq_len)
matrices (whose stacked shape would be [1, 2, 1, 2, 2]). -/

theorem flash_attn_with_trace_request_not_rejected :
    ftForwardS ftCfgFlash [2, 1] [2, 0] true = .ok ([2, 1], some [1, 2, 4]) ∧
    ([1, 2, 4] : Shape) ≠ [1, 2, 1, 2, 2] :=
  ⟨rfl, by decide⟩

/-- C7 counterexample: FTTransformer performs no shape check on the
continuous input.  With two continuous fields configured, a forward call
whose continuous input has trailing dimension 1 is not rejected at all:
the numerical embedder broadcasts the wrong-sized input silently and the
call returns logits normally. -/

theorem ft_forward_silent_continuous_mismatch :
    ftForwardS ftCfgC7 [4, 1] [4, 1] false = .ok ([4, 1], none) ∧
    (1 : ℕ) ≠ ftCfgC7.numContinuous :=
  ⟨rfl, by decide⟩

/-- C7 amended: both models fail fast, with a message naming the expected
categorical field count, when the categorical trailing dimension is wrong,
regardless of the continuous input; TabTransformer also independently
checks the continuous trailing dimension, naming the expected continuous
count; FTTransformer has no continuous-input check at all (see the
counterexample, where the mismatched call succeeds). -/

theorem shape_mismatch_checks_amended :
    (∀ (cfg : FTConfig) (xCateg xNumer : Shape) (r : Bool) (k : ℕ),
      xCateg.getLast? = some k → k ≠ cfg.numCategories →
      ftForwardS cfg xCateg xNumer r
        = .error (.assertError ("you must pass in " ++ toString cfg.numCategories
          ++ " values for your categories input"))) ∧
    (∀ (cfg : TabConfig) (xCateg xCont : Shape) (r : Bool) (k : ℕ),
      xCateg.getLast? = some k → k ≠ cfg.numCategories →
      tabForwardS cfg xCateg xCont r
        = .error (.assertError ("you must pass in " ++ toString cfg.numCategories
          ++ " values for your categories input"))) ∧
    (∀ m : ℕ, m ≠ 1 →
      tabForwardS tabCfgC7 [4, 1] [4, m] false
        = .error (.assertError "you must pass in 1 values for your continuous input")) := by
  refine ⟨?_, ?_, ?_⟩
  · intro cfg xCateg xNumer r k h hne
    simp [ftForwardS, shapeLastS, h, assertS, hne, Bind.bind, Except.bind]
  · intro cfg xCateg xCont r k h hne
    simp [tabForwardS, shapeLastS, h, assertS, hne, Bind.bind, Except.bind]
  · intro m hm
    simp [tabForwardS, tabCfgC7, shapeLastS, assertS, binOpShape, broadcastShapes,
      broadcastRev, sizeDim0S, catLastS, transformerFwdTabS, transformerLayerTabS,
      layerNormS, attentionFwdS, linearS, chunk3LastS, splitHeadsS, mergeHeadsS,
      einsumQKS, einsumAVS, ffFwdTabS, flattenFrom1S, shapeIdx1S, hm,
      TabConfig.numCategories, TabConfig.numUniqueCategories, TabConfig.sharedEmbedDim,
      checkpointS, Bind.bind, Except.bind, List.foldlM, List.range_succ,
      List.range_zero, Pure.pure, Except.pure, Functor.map, Except.map]
    rfl

/-- Witness for shape_mismatch_checks_amended: FTTransformer rejects a
4-field categorical input when 1 field is configured, TabTransformer
rejects the same, and TabTransformer rejects a 3-field continuous input
when 1 is configured. -/

theorem shape_mismatch_checks_amended_witness :
    (([4, 4] : Shape).getLast? = some 4 ∧ (4 : ℕ) ≠ ftCfgC7.numCategories ∧
      (4 : ℕ) ≠ tabCfgC7.numCategories ∧ (3 : ℕ) ≠ 1) ∧
    (ftForwardS ftCfgC7 [4, 4] [4, 2] false
        = .error (.assertError ("you must pass in " ++ toString ftCfgC7.numCategories
          ++ " values for your categories input")) ∧
      tabForwardS tabCfgC7 [4, 4] [4, 1] false
        = .error (.assertError ("you must pass in " ++ toString tabCfgC7.numCategories
          ++ " values for your categories input")) ∧
      tabForwardS tabCfgC7 [4, 1] [4, 3] false
        = .error (.assertError "you must pass in 1 values for your continuous input")) :=
  ⟨⟨by decide, by decide, by decide, by decide⟩,
    shape_mismatch_checks_amended.1 ftCfgC7 [4, 4] [4, 2] false 4 (by decide) (by decide),
    shape_mismatch_checks_amended.2.1 tabCfgC7 [4, 4] [4, 1] false 4 (by decide) (by decide),
    shape_mismatch_checks_amended.2.2 3 (by decide)⟩

/-- C8 counterexample: TabTransformer construction with zero continuous
fields does NOT validate a supplied continuous_mean_std: with
num_continuous = 0 and statistics of shape (1, 2), which differs from the
claimed required shape (num_continuous, 2) = (0, 2), construction
succeeds. -/

theorem tab_init_ignores_stats_when_no_continuous :
    tabInitChecks [2] 0 (some [1, 2]) = .ok () ∧ ([1, 2] : Shape) ≠ [0, 2] :=
  ⟨rfl, by decide⟩

/-- C8 amended: a non-positive cardinality fails construction of both
models, an empty field schema fails construction of both models, and a
malformed continuous_mean_std shape fails TabTransformer construction
whenever num_continuous is positive (with zero continuous fields supplied
statistics are ignored unchecked, see the counterexample). -/

theorem init_validation_errors :
    (∀ (cats : List ℤ) (nc : ℕ) (ms : Option Shape), (∃ c ∈ cats, c ≤ 0) →
      ftInitChecks cats nc
          = .error (.assertError "number of each category must be positive") ∧
        tabInitChecks cats nc ms
          = .error (.assertError "number of each category must be positive")) ∧
    (∀ ms : Option Shape,
      ftInitChecks [] 0 = .error (.assertError "input shape must not be null") ∧
        tabInitChecks [] 0 ms = .error (.assertError "input shape must not be null")) ∧
    (∀ (cats : List ℤ) (nc : ℕ) (s : Shape), (∀ c ∈ cats, 0 < c) → 0 < nc →
      s ≠ [nc, 2] →
      tabInitChecks cats nc (some s)
        = .error (.assertError ("continuous_mean_std must have a shape of ("
          ++ toString nc
          ++ ", 2) where the last dimension contains the mean and variance respectively"))) := by
  refine ⟨?_, ?_, ?_⟩
  · intro cats nc ms hbad
    have hall : cats.all (fun n => decide (0 < n)) = false := by
      rcases hbad with ⟨c, hc, hcle⟩
      simp [List.all_eq_true]
      exact ⟨c, hc, hcle⟩
    constructor
    · simp [ftInitChecks, assertS, hall, Bind.bind, Except.bind]
    · simp [tabInitChecks, assertS, hall, Bind.bind, Except.bind]
  · intro ms
    constructor
    · rfl
    · cases ms <;> rfl
  · intro cats nc s hpos hnc hs
    have hall : cats.all (fun n => decide (0 < n)) = true := by
      simp [List.all_eq_true]
      exact hpos
    simp [tabInitChecks, assertS, hall, hnc, hs, Bind.bind, Except.bind]

/-- Witness for init_validation_errors: a zero cardinality fails both
constructions, the empty schema fails both, and statistics of shape
(2, 2) with one continuous field fail TabTransformer construction. -/

theorem init_validation_errors_witness :
    ((∃ c ∈ ([0, 3] : List ℤ), c ≤ 0) ∧ (∀ c ∈ ([5] : List ℤ), 0 < c) ∧
      (0 : ℕ) < 1 ∧ ([2, 2] : Shape) ≠ [1, 2]) ∧
    (ftInitChecks [0, 3] 4
        = .error (.assertError "number of each category must be positive") ∧
      tabInitChecks [] 0 none
        = .error (.assertError "input shape must not be null") ∧
      tabInitChecks [5] 1 (some [2, 2])
        = .error (.assertError ("continuous_mean_std must have a shape of ("
          ++ toString (1 : ℕ)
          ++ ", 2) where the last dimension contains the mean and variance respectively"))) :=
  ⟨⟨by decide, by decide, by decide, by decide⟩,
    (init_validation_errors.1 [0, 3] 4 none (by decide)).1,
    (init_validation_errors.2.1 none).2,
    init_validation_errors.2.2 [5] 1 [2, 2] (by decide) (by decide) (by decide)⟩

/-- Rewriting a map over a zip as a zipWith. -/
theorem map_zip_eq_zipWith (h : α → β → γ) (xc : List α) (xn : List β) :
    (xc.zip xn).map (fun p => h p.1 p.2) = List.zipWith h xc xn := by
  rw [List.zip_eq_zipWith, List.map_zipWith]

/-- The batched get_embeddings body equals the per-sample computation
mapped over the zipped input rows (or the torch.cat error when the model
has neither categorical nor continuous fields). -/
theorem ftGetEmbBodyQ_spec (m : FTModelQ) (xc : List (List ℤ)) (xn : List Vec)
    (hlen : xc.length = xn.length) :
    ftGetEmbBodyQ m xc xn =
      if 0 < m.numUnique ∨ 0 < m.numContinuous then
        .ok ((xc.zip xn).map (ftRowQ m))
      else .error (.runtimeError "torch.cat expected a non-empty list of Tensors") := by
  by_cases hu : 0 < m.numUnique <;> by_cases hc : 0 < m.numContinuous
  · rw [if_pos (Or.inl hu)]
    simp only [ftGetEmbBodyQ, hu, hc, if_true, Bind.bind, Except.bind, Pure.pure,
      Except.pure, numericalEmbedderFwdQ]
    rw [List.zipWith_map]
    rw [← map_zip_eq_zipWith]
    simp only [List.map_map]
    refine congrArg Except.ok (List.map_congr_left ?_)
    intro p _
    simp [ftRowQ, hu, hc, Function.comp]
  · rw [if_pos (Or.inl hu)]
    simp only [ftGetEmbBodyQ, hu, hc, if_true, if_false, Bind.bind, Except.bind,
      Pure.pure, Except.pure]
    have hxc : xc = (xc.zip xn).map Prod.fst :=
      (List.map_fst_zip xc xn (le_of_eq hlen)).symm
    conv_lhs => rw [hxc]
    simp only [List.map_map]
    refine congrArg Except.ok (List.map_congr_left ?_)
    intro p _
    simp [ftRowQ, hu, hc, Function.comp]
  · rw [if_pos (Or.inr hc)]
    simp only [ftGetEmbBodyQ, hu, hc, if_true, if_false, Bind.bind, Except.bind,
      Pure.pure, Except.pure, numericalEmbedderFwdQ]
    have hxn : xn = (xc.zip xn).map Prod.snd :=
      (List.map_snd_zip xc xn (ge_of_eq hlen)).symm
    conv_lhs => rw [hxn]
    simp only [List.map_map]
    refine congrArg Except.ok (List.map_congr_left ?_)
    intro p _
    simp [ftRowQ, hu, hc, Function.comp]
  · rw [if_neg (by simp [hu, hc])]
    simp [ftGetEmbBodyQ, hu, hc, Bind.bind, Except.bind]

/-- Flattening the chunks of a list restores the list. -/
theorem chunksOf_flatten_aux (b' : ℕ) :
    ∀ (n : ℕ) (l : List α), l.length ≤ n → (chunksOf (b' + 1) l).flatten = l := by
  intro n
  induction n with
  | zero =>
    intro l hl
    have : l = [] := List.eq_nil_of_length_eq_zero (Nat.le_zero.mp hl)
    subst this
    simp [chunksOf]
  | succ n ih =>
    intro l hl
    cases l with
    | nil => simp [chunksOf]
    | cons a t =>
      rw [chunksOf]
      simp only [List.flatten_cons]
      rw [ih ((a :: t).drop (b' + 1)) (by simp at hl ⊢; omega)]
      exact List.take_append_drop _ _

/-- The chunk loop produces exactly the per-chunk maps of the per-sample
computation over the sliced, zipped input rows. -/
theorem ftGetEmbChunksQ_spec (m : FTModelQ) (b' : ℕ)
    (hgate : 0 < m.numUnique ∨ 0 < m.numContinuous) :
    ∀ (n : ℕ) (xc : List (List ℤ)) (xn : List Vec), xc.length ≤ n →
      xc.length = xn.length →
      ftGetEmbChunksQ m (b' + 1) xc xn
        = .ok ((chunksOf (b' + 1) (xc.zip xn)).map (List.map (ftRowQ m))) := by
  intro n
  induction n with
  | zero =>
    intro xc xn hl _
    have hxc : xc = [] := List.eq_nil_of_length_eq_zero (Nat.le_zero.mp hl)
    subst hxc
    simp [ftGetEmbChunksQ, chunksOf]
  | succ n ih =>
    intro xc xn hl hlen
    cases xc with
    | nil => simp [ftGetEmbChunksQ, chunksOf]
    | cons a t =>
      cases xn with
      | nil => simp at hlen
      | cons b u =>
        rw [ftGetEmbChunksQ]
        rw [dif_neg (List.cons_ne_nil a t)]
        have hlen2 : ((a :: t).take (b' + 1)).length = ((b :: u).take (b' + 1)).length := by
          simp only [List.length_take, List.length_cons] at hlen ⊢
          omega
        rw [ftGetEmbBodyQ_spec m _ _ hlen2, if_pos hgate]
        simp only [Bind.bind, Except.bind]
        rw [ih ((a :: t).drop (b' + 1)) ((b :: u).drop (b' + 1))
          (by simp only [List.length_drop, List.length_cons] at hl ⊢; omega)
          (by simp only [List.length_drop, List.length_cons] at hlen ⊢; omega)]
        simp only [Pure.pure, Except.pure]
        have hzipcons : (a :: t).zip (b :: u) = (a, b) :: t.zip u := rfl
        have ht : ((a :: t).zip (b :: u)).take (b' + 1)
            = ((a :: t).take (b' + 1)).zip ((b :: u).take (b' + 1)) := by
          simp [List.zip_eq_zipWith, List.take_zipWith]
        have hd : ((a :: t).zip (b :: u)).drop (b' + 1)
            = ((a :: t).drop (b' + 1)).zip ((b :: u).drop (b' + 1)) := by
          simp [List.zip_eq_zipWith, List.drop_zipWith]
        rw [hzipcons, chunksOf, ← hzipcons, ht, hd]
        simp

/-- Chunking a nonempty list yields at least one chunk. -/
theorem chunksOf_ne_nil (b' : ℕ) (l : List α) (h : l ≠ []) :
    chunksOf (b' + 1) l ≠ [] := by
  cases l with
  | nil => exact absurd rfl h
  | cons a t => rw [chunksOf]; exact List.cons_ne_nil _ _

/-- torch.cat of a nonempty collected list concatenates the chunks. -/
theorem catChunksQ_of_ne_nil (l : List (List Mat)) (h : l ≠ []) :
    catChunksQ l = .ok l.flatten := by
  cases l with
  | nil => exact absurd rfl h
  | cons a t => rfl

/-- C9 amended: for every data-level FTTransformer model, every nonempty
input batch with matching categorical/continuous row counts, and every
positive chunk size (dividing the batch evenly or not), get_embeddings
with that batch_size returns exactly the same result as the unchunked
call, the per-chunk results being concatenated in order over the batch
dimension.  (On an EMPTY batch the chunked call instead raises, see the
counterexample.) -/
theorem ft_get_embeddings_chunked_eq_unchunked (m : FTModelQ)
    (xc : List (List ℤ)) (xn : List Vec) (bs : ℕ) (hbs : 0 < bs)
    (hne : xc ≠ []) (hlen : xc.length = xn.length) :
    ftGetEmbeddingsQ m xc xn (some bs) = ftGetEmbeddingsQ m xc xn none := by
  obtain ⟨b', rfl⟩ : ∃ b', bs = b' + 1 := ⟨bs - 1, by omega⟩
  show (do
      let chunks ← ftGetEmbChunksQ m (b' + 1) xc xn
      catChunksQ chunks) = ftGetEmbBodyQ m xc xn
  by_cases hgate : 0 < m.numUnique ∨ 0 < m.numContinuous
  · rw [ftGetEmbChunksQ_spec m b' hgate xc.length xc xn le_rfl hlen]
    simp only [Bind.bind, Except.bind]
    have hz : xc.zip xn ≠ [] := by
      intro h
      rcases List.zip_eq_nil_iff.mp h with h | h
      · exact hne h
      · exact hne (List.eq_nil_of_length_eq_zero (by rw [hlen, h]; rfl))
    rw [catChunksQ_of_ne_nil _ (by
      intro h
      exact chunksOf_ne_nil b' _ hz (List.map_eq_nil_iff.mp h))]
    rw [← List.map_flatten, chunksOf_flatten_aux b' (xc.zip xn).length _ le_rfl]
    rw [ftGetEmbBodyQ_spec m xc xn hlen, if_pos hgate]
  · rw [ftGetEmbBodyQ_spec m xc xn hlen, if_neg hgate]
    cases xc with
    | nil => exact absurd rfl hne
    | cons a t =>
      rw [ftGetEmbChunksQ]
      rw [dif_neg (List.cons_ne_nil a t)]
      have hlen2 : ((a :: t).take (b' + 1)).length = (xn.take (b' + 1)).length := by
        simp only [List.length_take, List.length_cons] at hlen ⊢
        omega
      rw [ftGetEmbBodyQ_spec m _ _ hlen2, if_neg hgate]
      rfl

/-- Witness for ft_get_embeddings_chunked_eq_unchunked: a batch of three
rows chunked with batch_size 2 (an uneven split). -/
theorem ft_get_embeddings_chunked_eq_unchunked_witness :
    ((0 : ℕ) < 2 ∧ ([[0], [1], [0]] : List (List ℤ)) ≠ [] ∧
      ([[0], [1], [0]] : List (List ℤ)).length = ([[], [], []] : List Vec).length) ∧
    ftGetEmbeddingsQ ftModelEx [[0], [1], [0]] [[], [], []] (some 2)
      = ftGetEmbeddingsQ ftModelEx [[0], [1], [0]] [[], [], []] none :=
  ⟨⟨by decide, by decide, by decide⟩,
    ft_get_embeddings_chunked_eq_unchunked ftModelEx [[0], [1], [0]] [[], [], []] 2
      (by decide) (by decide) (by decide)⟩

/-- C9 counterexample: on an EMPTY input batch the unchunked call returns
an empty result but any chunked call raises, because the Python loop
collects no chunks and torch.cat of an empty list raises; so chunked and
unchunked get_embeddings do not agree for every input pair. -/
theorem ft_get_embeddings_empty_batch_chunked_diverges :
    ftGetEmbeddingsQ ftModelEx [] [] (some 1)
      = .error (.runtimeError "torch.cat expected a non-empty list of Tensors") ∧
    ftGetEmbeddingsQ ftModelEx [] [] none = .ok [] := by
  constructor
  · simp [ftGetEmbeddingsQ, ftGetEmbChunksQ, catChunksQ, Bind.bind, Except.bind,
      Pure.pure, Except.pure]
  · rfl

/-- One entry of the numerical embedder output. -/
theorem numericalEmbedderFwdQ_entry (w b : Mat) (xb : List Vec) (bi i d : ℕ)
    (hb : bi < xb.length)
    (hi : i < (xb.getD bi []).length) (hiw : i < w.length) (hib : i < b.length)
    (hdw : d < (w.getD i []).length) (hdb : d < (b.getD i []).length) :
    (((numericalEmbedderFwdQ w b xb).getD bi []).getD i []).getD d 0
      = (xb.getD bi []).getD i 0 * (w.getD i []).getD d 0 + (b.getD i []).getD d 0 := by
  rw [List.getD_eq_getElem xb [] hb] at hi ⊢
  rw [List.getD_eq_getElem w [] hiw] at hdw ⊢
  rw [List.getD_eq_getElem b [] hib] at hdb ⊢
  have hb1 : bi < (numericalEmbedderFwdQ w b xb).length := by
    simpa [numericalEmbedderFwdQ] using hb
  rw [List.getD_eq_getElem _ [] hb1]
  simp only [numericalEmbedderFwdQ, List.getElem_map]
  have hlzip : i < ((xb[bi].zip (w.zip b))).length := by
    simp only [List.length_zip]
    omega
  have hi2 : i < (List.map (fun p => vaddQ (List.map (fun x => p.1 * x) p.2.1) p.2.2)
      (xb[bi].zip (w.zip b))).length := by
    simpa using hlzip
  rw [List.getD_eq_getElem _ [] hi2]
  simp only [List.getElem_map]
  have hzz : (xb[bi].zip (w.zip b))[i] = (xb[bi][i], (w[i], b[i])) := by
    rw [List.getElem_zip]
    congr 1
    rw [List.getElem_zip]
  rw [hzz]
  have hd2 : d < (vaddQ (List.map (fun x => xb[bi][i] * x) w[i]) b[i]).length := by
    simp [vaddQ]
    omega
  rw [List.getD_eq_getElem _ 0 hd2]
  simp only [vaddQ, List.getElem_zipWith, List.getElem_map]
  rw [List.getD_eq_getElem _ 0 hi, List.getD_eq_getElem _ 0 hdw,
    List.getD_eq_getElem _ 0 hdb]

/-- C10: the numerical field embedder output entry (sample bi, field i,
coordinate d) equals value * weight_i + bias_i elementwise, and it is
independent of every other field and sample: any batch agreeing with the
original at (bi, i) produces the same field-i output entry. -/
theorem numerical_embedder_affine_per_field
    (w b : Mat) (xb : List Vec) (bi i d : ℕ)
    (hb : bi < xb.length)
    (hi : i < (xb.getD bi []).length) (hiw : i < w.length) (hib : i < b.length)
    (hdw : d < (w.getD i []).length) (hdb : d < (b.getD i []).length) :
    (((numericalEmbedderFwdQ w b xb).getD bi []).getD i []).getD d 0
      = (xb.getD bi []).getD i 0 * (w.getD i []).getD d 0 + (b.getD i []).getD d 0 ∧
    (∀ (xb' : List Vec) (bi' : ℕ), bi' < xb'.length →
      i < (xb'.getD bi' []).length →
      (xb'.getD bi' []).getD i 0 = (xb.getD bi []).getD i 0 →
      (((numericalEmbedderFwdQ w b xb').getD bi' []).getD i []).getD d 0
        = (((numericalEmbedderFwdQ w b xb).getD bi []).getD i []).getD d 0) := by
  refine ⟨numericalEmbedderFwdQ_entry w b xb bi i d hb hi hiw hib hdw hdb, ?_⟩
  intro xb' bi' hb' hi' hagree
  rw [numericalEmbedderFwdQ_entry w b xb' bi' i d hb' hi' hiw hib hdw hdb,
    numericalEmbedderFwdQ_entry w b xb bi i d hb hi hiw hib hdw hdb, hagree]

/-- Witness for numerical_embedder_affine_per_field: two fields with
dim 2, second coordinate of field 0 of sample 0. -/
theorem numerical_embedder_affine_per_field_witness :
    ((0 : ℕ) < ([[10, 4], [20, 6]] : List Vec).length ∧
      (0 : ℕ) < (([[10, 4], [20, 6]] : List Vec).getD 0 []).length ∧
      (0 : ℕ) < ([[2, 3], [1, 1]] : Mat).length ∧
      (0 : ℕ) < ([[5, 7], [0, 2]] : Mat).length ∧
      (1 : ℕ) < (([[2, 3], [1, 1]] : Mat).getD 0 []).length ∧
      (1 : ℕ) < (([[5, 7], [0, 2]] : Mat).getD 0 []).length) ∧
    (((numericalEmbedderFwdQ [[2, 3], [1, 1]] [[5, 7], [0, 2]]
          [[10, 4], [20, 6]]).getD 0 []).getD 0 []).getD 1 0
      = (([[10, 4], [20, 6]] : List Vec).getD 0 []).getD 0 0
          * (([[2, 3], [1, 1]] : Mat).getD 0 []).getD 1 0
          + (([[5, 7], [0, 2]] : Mat).getD 0 []).getD 1 0 :=
  ⟨⟨by decide, by decide, by decide, by decide, by decide, by decide⟩,
    (numerical_embedder_affine_per_field [[2, 3], [1, 1]] [[5, 7], [0, 2]]
      [[10, 4], [20, 6]] 0 0 1
      (by decide) (by decide) (by decide) (by decide) (by decide) (by decide)).1⟩

/-- TabTransformer never defines categorical_embeds, whatever the
configuration. -/
theorem tabRequireAttr_categorical_embeds (cfg : TabConfig) :
    tabRequireAttr cfg "categorical_embeds" = .error (.attributeError "categorical_embeds") := by
  unfold tabRequireAttr tabDefinedAttrs
  rw [if_neg]
  intro h
  rcases List.mem_append.mp h with h | h
  · rcases List.mem_append.mp h with h | h
    · rcases List.mem_append.mp h with h | h
      · revert h; decide
      · revert h
        split_ifs <;> decide
    · revert h
      split_ifs <;> decide
  · revert h
    split_ifs <;> decide

/-- The offset table attribute exists when there is at least one
category. -/
theorem tabRequireAttr_categories_offset (cfg : TabConfig)
    (h : 0 < cfg.numUniqueCategories) :
    tabRequireAttr cfg "categories_offset" = .ok () := by
  unfold tabRequireAttr tabDefinedAttrs
  rw [if_pos]
  refine List.mem_append.mpr (Or.inl (List.mem_append.mpr (Or.inr ?_)))
  rw [if_pos h]
  decide

/-- Adding the offset vector to a well-shaped categorical batch
broadcasts to the batch shape. -/
theorem binOpShape_row_vec (b n : ℕ) : binOpShape [b, n] [n] = .ok [b, n] := by
  simp [binOpShape, broadcastShapes, broadcastRev]

/-- On a well-shaped categorical input the get_embeddings body reaches
the categorical_embeds read and raises AttributeError. -/
theorem tabGetEmbBodyS_attr_error (cfg : TabConfig)
    (hcats : 0 < cfg.numUniqueCategories) (b : ℕ) (xCont : Shape) :
    tabGetEmbBodyS cfg [b, cfg.numCategories] xCont
      = .error (.attributeError "categorical_embeds") := by
  simp [tabGetEmbBodyS, hcats, tabRequireAttr_categories_offset cfg hcats,
    binOpShape_row_vec, tabRequireAttr_categorical_embeds, Bind.bind, Except.bind]

/-- The get_embeddings body never succeeds when the model has categorical
fields (any input shape: either the offset addition fails or the
categorical_embeds read fails). -/
theorem tabGetEmbBodyS_not_ok (cfg : TabConfig)
    (hcats : 0 < cfg.numUniqueCategories) (xCateg xCont : Shape) :
    (tabGetEmbBodyS cfg xCateg xCont).isOk = false := by
  cases hbr : binOpShape xCateg [cfg.numCategories] with
  | error e =>
    simp [tabGetEmbBodyS, hcats, tabRequireAttr_categories_offset cfg hcats,
      hbr, Bind.bind, Except.bind, Except.isOk, Except.toBool]
  | ok s =>
    simp [tabGetEmbBodyS, hcats, tabRequireAttr_categories_offset cfg hcats,
      hbr, tabRequireAttr_categorical_embeds, Bind.bind, Except.bind,
      Except.isOk, Except.toBool]

/-- C3 amended: for every TabTransformer with at least one categorical
field (hence positive total cardinality), get_embeddings on a well-shaped
nonempty batch fails with AttributeError on categorical_embeds, both
unchunked and with any positive chunk size; and no call, whatever the
inputs and chunk option, ever returns embeddings (an empty batch with a
chunk size fails at torch.cat instead, a zero chunk size fails in
range). -/
theorem tab_get_embeddings_always_fails (cfg : TabConfig)
    (hcats : 0 < cfg.numUniqueCategories) :
    (∀ (b : ℕ) (xCont : Shape),
      tabGetEmbeddingsS cfg [b, cfg.numCategories] xCont none
        = .error (.attributeError "categorical_embeds")) ∧
    (∀ (b bs : ℕ) (xCont : Shape), 0 < bs →
      tabGetEmbeddingsS cfg [b + 1, cfg.numCategories] xCont (some bs)
        = .error (.attributeError "categorical_embeds")) ∧
    (∀ (xCateg xCont : Shape) (bsOpt : Option ℕ),
      (tabGetEmbeddingsS cfg xCateg xCont bsOpt).isOk = false) := by
  refine ⟨?_, ?_, ?_⟩
  · intro b xCont
    exact tabGetEmbBodyS_attr_error cfg hcats b xCont
  · intro b bs xCont hbs
    obtain ⟨j, hj⟩ : ∃ j, (b + 1 + bs - 1) / bs = j + 1 := by
      have h1 : 1 ≤ (b + 1 + bs - 1) / bs := by
        rw [Nat.one_le_div_iff hbs]
        omega
      exact ⟨(b + 1 + bs - 1) / bs - 1, by omega⟩
    simp only [tabGetEmbeddingsS, sizeDim0S, chunkRowCounts, hj,
      List.range_succ_eq_map, List.map_cons, Bind.bind, Except.bind]
    rw [if_neg (by omega)]
    simp only [List.mapM_cons, Nat.zero_mul, Nat.sub_zero, List.tail_cons,
      tabGetEmbBodyS_attr_error cfg hcats, Bind.bind, Except.bind]
  · intro xCateg xCont bsOpt
    cases bsOpt with
    | none => exact tabGetEmbBodyS_not_ok cfg hcats xCateg xCont
    | some bs =>
      cases xCateg with
      | nil => simp [tabGetEmbeddingsS, sizeDim0S, Bind.bind, Except.bind,
          Except.isOk, Except.toBool]
      | cons b tail =>
        by_cases hbs : bs = 0
        · subst hbs
          simp [tabGetEmbeddingsS, sizeDim0S, Bind.bind, Except.bind,
            Except.isOk, Except.toBool]
        · cases b with
          | zero =>
            have hcount : (bs - 1) / bs = 0 := by
              rw [Nat.div_eq_zero_iff (Nat.pos_of_ne_zero hbs)]
              omega
            have hcr : chunkRowCounts 0 bs = [] := by
              simp [chunkRowCounts, hcount]
            simp [tabGetEmbeddingsS, sizeDim0S, hcr, hbs, List.mapM.loop,
              Bind.bind, Except.bind, Pure.pure, Except.pure, catDim0S,
              Except.isOk, Except.toBool]
          | succ b' =>
            obtain ⟨j, hj⟩ : ∃ j, (b' + bs) / bs = j + 1 := by
              have h1 : 1 ≤ (b' + bs) / bs := by
                rw [Nat.one_le_div_iff (Nat.pos_of_ne_zero hbs)]
                omega
              exact ⟨(b' + bs) / bs - 1, by omega⟩
            have hbody := tabGetEmbBodyS_not_ok cfg hcats
              (min bs (b' + 1) :: tail) (min bs (b' + 1) :: xCont.tail)
            obtain ⟨e, he⟩ : ∃ e, tabGetEmbBodyS cfg
                (min bs (b' + 1) :: tail)
                (min bs (b' + 1) :: xCont.tail) = .error e := by
              cases hx : tabGetEmbBodyS cfg (min bs (b' + 1) :: tail)
                  (min bs (b' + 1) :: xCont.tail) with
              | ok v => rw [hx] at hbody; simp [Except.isOk, Except.toBool] at hbody
              | error e => exact ⟨e, rfl⟩
            simp [tabGetEmbeddingsS, sizeDim0S, chunkRowCounts, hj, hbs,
              List.range_succ_eq_map, List.mapM.loop, he,
              Bind.bind, Except.bind, Except.isOk, Except.toBool]

/-- Witness for tab_get_embeddings_always_fails: a concrete model with one
categorical field, a batch of three rows, unchunked and with chunk size 2,
and the never-succeeds conjunct at a zero chunk size. -/
theorem tab_get_embeddings_always_fails_witness :
    (0 < tabCfgC3.numUniqueCategories ∧ (0 : ℕ) < 2) ∧
    (tabGetEmbeddingsS tabCfgC3 [3, tabCfgC3.numCategories] [3, 0] none
        = .error (.attributeError "categorical_embeds") ∧
      tabGetEmbeddingsS tabCfgC3 [2 + 1, tabCfgC3.numCategories] [3, 0] (some 2)
        = .error (.attributeError "categorical_embeds") ∧
      (tabGetEmbeddingsS tabCfgC3 [] [] (some 0)).isOk = false) :=
  ⟨⟨by decide, by decide⟩,
    (tab_get_embeddings_always_fails tabCfgC3 (by decide)).1 3 [3, 0],
    (tab_get_embeddings_always_fails tabCfgC3 (by decide)).2.1 2 2 [3, 0] (by decide),
    (tab_get_embeddings_always_fails tabCfgC3 (by decide)).2.2 [] [] (some 0)⟩

/-- C3 counterexample: a chunked get_embeddings call on an EMPTY batch
does not fail with an AttributeError: the chunk loop body never runs, so
the failure is the RuntimeError of torch.cat on an empty Python list. -/
theorem tab_get_embeddings_empty_batch_not_attribute_error :
    tabGetEmbeddingsS tabCfgC3 [0, 1] [0, 0] (some 1)
      = .error (.runtimeError "torch.cat expected a non-empty list of Tensors") ∧
    Err.runtimeError "torch.cat expected a non-empty list of Tensors"
      ≠ Err.attributeError "categorical_embeds" :=
  ⟨rfl, by decide⟩

end TabSpec
